import Mathlib

/-!
Verification of `packages/workbox-webpack-plugin/src/inject-manifest.ts`
(the `InjectManifest` webpack plugin).

Texts are modelled as `List Char`.  Each definition below embeds a
contiguous slice of the TypeScript source; the line numbers of the slice
are given in its doc comment.  JavaScript built-ins that the source calls
(`String.prototype.replace`, `String.prototype.match` with a global
regexp, `Object.assign`, `Array.prototype.push`, `Set.prototype.add/has`)
are embedded with their ECMAScript semantics.
-/

/-! ## Character constants (kept out of string literals for clarity) -/

def dquoteChar : Char := Char.ofNat 34

def squoteChar : Char := Char.ofNat 39

def dollarChar : Char := Char.ofNat 36

def ampChar : Char := Char.ofNat 38

def backtickChar : Char := Char.ofNat 96

def backslashChar : Char := Char.ofNat 92

def lbraceChar : Char := Char.ofNat 123

def rbraceChar : Char := Char.ofNat 125

/-! ## First-occurrence search

`splitFirst marker text` returns `some (b, a)` when `marker` occurs in
`text`, where `b` is the part of `text` strictly before the first
occurrence and `a` the part strictly after it (so `text = b ++ marker ++ a`).
This is the search step shared by `String.prototype.replace` with a string
pattern and by a global-regexp scan over the escaped injection point
(`escapeRegExp` makes the regexp match the marker literally). -/

def splitFirst (marker : List Char) : List Char → Option (List Char × List Char)
  | [] => if marker.isEmpty then some ([], []) else none
  | c :: rest =>
    if marker.isPrefixOf (c :: rest) then
      some ([], (c :: rest).drop marker.length)
    else
      match splitFirst marker rest with
      | some (b, a) => some (c :: b, a)
      | none => none

/-- Number of matches found by `swAssetString.match(new RegExp(escapeRegExp(marker), 'g'))`
(inject-manifest.ts lines 357-358): a left-to-right non-overlapping scan for the
literal marker.  `fuel` is an upper bound on the number of scan steps; it is
structural so that the function evaluates in the kernel. -/
def matchCountAux (marker : List Char) : Nat → List Char → Nat
  | 0, _ => 0
  | fuel + 1, text =>
    match splitFirst marker text with
    | none => 0
    | some (_, a) => 1 + matchCountAux marker fuel a

/-- Match count of the (escaped, hence literal) marker in the text, as computed
by the global-regexp `match` call.  An empty pattern matches once at every
position, hence `text.length + 1` matches, exactly as in ECMAScript. -/
def matchCount (marker text : List Char) : Nat :=
  if marker.isEmpty then text.length + 1
  else matchCountAux marker (text.length + 1) text

/-! ## Injection-point check (inject-manifest.ts lines 357-371) -/

/-- Message of the error thrown at lines 361-364:
`Can't find ${config.injectionPoint} in your SW source.` -/
def notFoundMsg (marker : List Char) : List Char :=
  "Can".toList ++ [squoteChar] ++ "t find ".toList ++ marker ++ " in your SW source.".toList

/-- Tail of the error message thrown at lines 365-371. -/
def multipleMsgTail : List Char :=
  " were found in your SW source. Include it only once. For more info, see https://github.com/GoogleChrome/workbox/issues/2681".toList

/-- Message of the error thrown at lines 365-371:
`Multiple instances of ${config.injectionPoint} were found in your SW source.
Include it only once. ...` -/
def multipleMsg (marker : List Char) : List Char :=
  "Multiple instances of ".toList ++ marker ++ multipleMsgTail

/-- inject-manifest.ts lines 357-371: count the matches of the escaped
injection point; `null` (count 0) throws the not-found error, a match array
whose length is not 1 throws the multiple-instances error, otherwise
processing continues. -/
def checkInjectionPoint (marker text : List Char) : Except (List Char) Unit :=
  if matchCount marker text = 0 then
    Except.error (notFoundMsg marker)
  else if matchCount marker text ≠ 1 then
    Except.error (multipleMsg marker)
  else
    Except.ok ()

/-! ## `String.prototype.replace(searchString, replaceString)`
(used at inject-manifest.ts line 421)

ECMAScript performs GetSubstitution on the replacement string: `$$`, `$&`,
`$` + backtick and `$` + single quote are special (there are no capture
groups here, so `$n` stays literal). -/

/-- ECMAScript GetSubstitution for a string replacement with no capture
groups: `matched` is the matched substring, `before` the part of the
subject before the match, `after` the part after it. -/
def getSubstitution (matched before after : List Char) : List Char → List Char
  | [] => []
  | [c] => [c]
  | c :: d :: rest =>
    if c = dollarChar then
      if d = dollarChar then dollarChar :: getSubstitution matched before after rest
      else if d = ampChar then matched ++ getSubstitution matched before after rest
      else if d = backtickChar then before ++ getSubstitution matched before after rest
      else if d = squoteChar then after ++ getSubstitution matched before after rest
      else c :: getSubstitution matched before after (d :: rest)
    else c :: getSubstitution matched before after (d :: rest)

/-- `text.replace(searchString, replaceString)` with string arguments:
replace the first occurrence of `searchString`, applying GetSubstitution
to `replaceString`; return `text` unchanged when there is no occurrence. -/
def jsReplaceFirst (searchString replaceString text : List Char) : List Char :=
  match splitFirst searchString text with
  | none => text
  | some (b, a) => b ++ getSubstitution searchString b a replaceString ++ a

/-- The literal splice the specification describes: substitute the
replacement verbatim for the marker occurrence between `b` and `a`. -/
def spliceVerbatim (b replacement a : List Char) : List Char :=
  b ++ replacement ++ a

/-! ## Manifest entries and their serialization

`getManifestEntriesFromCompilation` (imported at line 18, its source file is
not part of this tree) produces `{url, revision}` records; `stringify`
(line 13) is `fast-json-stable-stringify`: JSON with object keys sorted
alphabetically (`revision` before `url`). -/

structure ManifestEntry where
  url : List Char
  revision : Option (List Char)
deriving DecidableEq

/-- JSON escaping of one character inside a string literal (only the quote
and the backslash occur in the inputs modelled here). -/
def jsonEscapeChar (c : Char) : List Char :=
  if c = dquoteChar ∨ c = backslashChar then [backslashChar, c] else [c]

/-- A JSON string literal: double quotes around the escaped payload. -/
def jsonString (s : List Char) : List Char :=
  dquoteChar :: ((s.map jsonEscapeChar).flatten ++ [dquoteChar])

/-- Modelled from the spec: `stringify` / the Manifest Serializer on one
entry — a JSON object with keys in sorted order (`revision`, then `url`),
`null` for a missing revision; matches the end-to-end example of the spec
(`[{"revision":"123","url":"a.js"}, ...]`).  The `fast-json-stable-stringify`
dependency is not part of this source tree. -/
def stringifyEntry (e : ManifestEntry) : List Char :=
  [lbraceChar] ++ jsonString "revision".toList ++ [':'] ++
    (match e.revision with
     | none => "null".toList
     | some r => jsonString r) ++
    [','] ++ jsonString "url".toList ++ [':'] ++ jsonString e.url ++ [rbraceChar]

/-- Comma-separated concatenation, as in a JSON array body. -/
def commaJoin : List (List Char) → List Char
  | [] => []
  | [x] => x
  | x :: y :: rest => x ++ [','] ++ commaJoin (y :: rest)

/-- Modelled from the spec: `stringify(sortedEntries)` (inject-manifest.ts
line 378) — a JSON array of the serialized entries. -/
def stringifyEntries (l : List ManifestEntry) : List Char :=
  ['['] ++ commaJoin (l.map stringifyEntry) ++ [']']

/-! ## The quote-compatibility rule (inject-manifest.ts lines 378-392) -/

/-- The slice of `compilation.options` the quote rule reads: `devtool`
(a string or absent/false) and `optimization.minimize` (absent `optimization`
is `none`). -/
structure CompOptions where
  devtool : Option (List Char)
  optimization : Option Bool
deriving DecidableEq

/-- inject-manifest.ts lines 383-388: `compilation.options &&
compilation.options.devtool === 'eval-cheap-source-map' &&
compilation.options.optimization && compilation.options.optimization.minimize`. -/
def specialDevtoolCombo : Option CompOptions → Bool
  | none => false
  | some o =>
    (decide (o.devtool = some ("eval-cheap-source-map".toList))) && o.optimization.getD false

/-- inject-manifest.ts lines 379-389: the guard of the quote replacement,
`this.config.compileSrc && !(...special devtool/minimize combination...)`. -/
def quoteCondition (compileSrc : Bool) (options : Option CompOptions) : Bool :=
  compileSrc && !specialDevtoolCombo options

/-- inject-manifest.ts lines 378-392: serialize the sorted entries and, when
`quoteCondition` holds, rewrite every double quote to a single quote
(`manifestString.replace(/"/g, ...)` with a single-quote replacement). -/
def manifestString (sortedEntries : List ManifestEntry) (compileSrc : Bool)
    (options : Option CompOptions) : List Char :=
  let s := stringifyEntries sortedEntries
  if quoteCondition compileSrc options then
    s.map (fun c => if c = dquoteChar then squoteChar else c)
  else s

/-! ## The process-wide generated-asset-name registry
(`_generatedAssetNames`, inject-manifest.ts line 25)

A JS `Set<string>` written at lines 295 (`handleMake`) and 401
(`addAssets`, for the sourcemap companion) and read by the exclude
predicate pushed at line 348.  Membership semantics; modelled as a list. -/

/-- The two program points that write `_generatedAssetNames`. -/
inductive RegistryOp where
  | registerSwDest (name : List Char)
  | registerSourcemap (name : List Char)

/-- `Set.prototype.add`: both write sites only insert. -/
def applyRegistryOp (s : List (List Char)) : RegistryOp → List (List Char)
  | RegistryOp.registerSwDest n => n :: s
  | RegistryOp.registerSourcemap n => n :: s

/-- The registry contents after a sequence of writes, starting from `s`. -/
def runRegistryOps (s : List (List Char)) (ops : List RegistryOp) : List (List Char) :=
  ops.foldl applyRegistryOp s

/-- inject-manifest.ts line 348: the closure
`(name) => _generatedAssetNames.has(name)` pushed onto `config.exclude`,
evaluated against registry contents `gen`. -/
def generatedExcludePred (gen : List (List Char)) (name : List Char) : Bool :=
  gen.contains name

/-- Modelled from the spec: `getManifestEntriesFromCompilation` consumes the
config's exclude predicates and drops every asset on which some exclude
predicate holds (webpack condition semantics); its source file is not part
of this tree.  Only asset names matter for the exclusion claims. -/
def computeEntries (assetNames : List (List Char))
    (exclude : List (List Char → Bool)) : List (List Char) :=
  assetNames.filter (fun name => !(exclude.any (fun p => p name)))

/-- inject-manifest.ts lines 400-401: when `getSourcemapAssetName` found a
companion sourcemap asset, its name is added to `_generatedAssetNames`
(before the splice that rewrites the asset and its map). -/
def addAssetsSourcemapRegister (gen : List (List Char)) :
    Option (List Char) → List (List Char)
  | some n => applyRegistryOp gen (RegistryOp.registerSourcemap n)
  | none => gen

/-! ## The repeated-invocation guard (inject-manifest.ts lines 52-54, 134,
322-342) -/

/-- `this.alreadyCalled = false` in the constructor (line 134). -/
def initialAlreadyCalled : Bool := false

/-- The warning message built at lines 325-330 (`this.constructor.name`
is `InjectManifest`). -/
def staleWarningMsg : List Char :=
  ("InjectManifest has been called multiple times, perhaps due to running " ++
   "webpack in --watch mode. The precache manifest generated after the first " ++
   "call may be inaccurate! Please see " ++
   "https://github.com/GoogleChrome/workbox/issues/1790 for more information.").toList

/-- inject-manifest.ts lines 324-342: if `this.alreadyCalled`, push the
stale-manifest warning onto `compilation.warnings` unless an equal message
is already there; otherwise set `this.alreadyCalled = true`.  Returns the
new flag and the new warnings list. -/
def noteInvocation (alreadyCalled : Bool) (warnings : List (List Char)) :
    Bool × List (List Char) :=
  if alreadyCalled then
    (true, if warnings.contains staleWarningMsg then warnings
           else warnings ++ [staleWarningMsg])
  else
    (true, warnings)

/-- Repeated `addAssets` invocations against the same compilation: the
warnings list persists from call to call. -/
def callsSameCompilation (flag : Bool) (warnings : List (List Char)) :
    Nat → Bool × List (List Char)
  | 0 => (flag, warnings)
  | n + 1 =>
    let r := noteInvocation flag warnings
    callsSameCompilation r.1 r.2 n

/-- Repeated `addAssets` invocations in watch mode: each rebuild is a fresh
compilation whose warnings list starts empty; the result counts the
warnings the instance emitted over the whole run. -/
def watchModeWarningCount (flag : Bool) : Nat → Nat
  | 0 => 0
  | n + 1 =>
    let r := noteInvocation flag []
    r.2.length + watchModeWarningCount r.1 n

/-- First part of `addAssets` (lines 322-371): run the invocation guard,
then the injection-point check on the destination asset text.  Returns the
new `alreadyCalled` flag, the new warnings list, and the check outcome. -/
def addAssetsGuardAndCheck (alreadyCalled : Bool) (warnings : List (List Char))
    (marker text : List Char) :
    Bool × List (List Char) × Except (List Char) Unit :=
  let r := noteInvocation alreadyCalled warnings
  (r.1, r.2, checkInjectionPoint marker text)

/-! ## The compilation state visible to `handleMake` and
`performChildCompilation` -/

/-- The slice of a webpack `Compilation` the modelled code touches:
the named assets, the warnings and errors lists, and the options read by
the quote rule. -/
structure Compilation where
  assets : List (List Char × List Char)
  warnings : List (List Char)
  errors : List (List Char)
  options : Option CompOptions

/-- Diagnostics of the finished child compilation handed to the
`runAsChild` callback. -/
structure ChildDiagnostics where
  warnings : List (List Char)
  errors : List (List Char)

/-- inject-manifest.ts lines 241-256: the `runAsChild` callback.  An
infrastructure `error` rejects the promise (the surrounding `await`
rethrows it); otherwise the child compilation's warnings and errors are
concatenated onto the outer compilation's lists (`childCompilation` may be
absent, contributing nothing) and the promise resolves. -/
def performChildCompilation (comp : Compilation)
    (runResult : Except (List Char) (Option ChildDiagnostics)) :
    Except (List Char) Compilation :=
  match runResult with
  | Except.error e => Except.error e
  | Except.ok child =>
    Except.ok
      { comp with
        warnings := comp.warnings ++ (match child with
          | some c => c.warnings
          | none => []),
        errors := comp.errors ++ (match child with
          | some c => c.errors
          | none => []) }

/-! ## `handleMake` without compilation (inject-manifest.ts lines 265-271
and 297-314) -/

/-- The configuration fields read by the modelled `handleMake` body, after
`validateWebpackInjectManifestOptions` succeeded and `swDest` was resolved
(lines 284-295).  `webpackCompilationPlugins` is `none` when absent and
`some l` when an array was configured (plugins themselves are opaque). -/
structure MakeConfig where
  swSrc : List Char
  swDest : List Char
  compileSrc : Bool
  webpackCompilationPlugins : Option (List Unit)

/-- inject-manifest.ts lines 303-305: `Array.isArray(x) && x.length > 0`. -/
def hasCompilationPlugins : Option (List Unit) → Bool
  | some l => !l.isEmpty
  | none => false

/-- The warning pushed at lines 307-312. -/
def ignoredPluginsWarning : List Char :=
  "compileSrc is false, so the webpackCompilationPlugins option will be ignored.".toList

/-- inject-manifest.ts lines 265-271 (`addSrcToAssets`): read the source
file's bytes from the input filesystem and emit them unchanged as the
`swDest` asset (`new RawSource(source)`). -/
def addSrcToAssets (readFile : List Char → List Char) (cfg : MakeConfig)
    (comp : Compilation) : Compilation :=
  { comp with assets := comp.assets ++ [(cfg.swDest, readFile cfg.swSrc)] }

/-- inject-manifest.ts lines 297-314: the branch of `handleMake` after
validation and `swDest` registration.  With `compileSrc` the child
compilation runs (abstracted as `performChild`); otherwise the source is
emitted verbatim and, when a non-empty plugins array was configured, the
ignored-plugins warning is pushed. -/
def handleMakeBody (cfg : MakeConfig) (readFile : List Char → List Char)
    (performChild : Compilation → Compilation) (comp : Compilation) : Compilation :=
  if cfg.compileSrc then performChild comp
  else
    let comp2 := addSrcToAssets readFile cfg comp
    if hasCompilationPlugins cfg.webpackCompilationPlugins then
      { comp2 with warnings := comp2.warnings ++ [ignoredPluginsWarning] }
    else comp2

/-! ## The shallow config copy in `addAssets`
(inject-manifest.ts lines 344-348)

`const config = Object.assign({}, this.config)` copies the top-level
properties only: `config.exclude` and `this.config.exclude` are the same
array object.  `config.exclude.push(pred)` therefore appends to the array
that `this.config.exclude` also references.  The model keeps the contents
of that shared array in the instance state. -/

/-- The per-instance state relevant to the exclude-array aliasing: the
contents of the array referenced by `this.config.exclude`, and the
invocation flag. -/
structure PluginInstance where
  excludeContents : List (List Char → Bool)
  alreadyCalled : Bool

/-- inject-manifest.ts lines 344-348 under JS shallow-copy semantics:
the push through the copied reference updates the shared array, so the
instance's view of `this.config.exclude` gains the generated-assets
predicate; the same (now longer) array is what the manifest-entry
computation receives. -/
def addAssetsConfigCopy (gen : List (List Char)) (inst : PluginInstance) :
    PluginInstance × List (List Char → Bool) :=
  let pushed := inst.excludeContents ++ [generatedExcludePred gen]
  ({ inst with excludeContents := pushed }, pushed)

/-- `true` when the list contains one of the two-character sequences that
GetSubstitution treats specially in a no-capture-group replacement:
dollar followed by dollar, ampersand, backtick or single quote. -/
def hasDollarEscape : List Char → Bool
  | [] => false
  | [_] => false
  | c :: d :: rest =>
    (c = dollarChar &&
      (d = dollarChar || d = ampChar || d = backtickChar || d = squoteChar)) ||
    hasDollarEscape (d :: rest)

/-! # Theorems -/

theorem isPrefixOf_exists (m t : List Char) (h : m.isPrefixOf t = true) :
    ∃ s, t = m ++ s := by
  have hp : m <+: t := List.isPrefixOf_iff_prefix.mp h
  rcases hp with ⟨s, hs⟩
  exact ⟨s, hs.symm⟩

theorem splitFirst_eq (m t b a : List Char) (h : splitFirst m t = some (b, a)) :
    t = b ++ m ++ a := by
  induction t generalizing b a with
  | nil =>
    by_cases hm : m.isEmpty <;> simp [splitFirst, hm] at h
    rcases h with ⟨hb, ha⟩
    subst hb; subst ha
    simp [List.isEmpty_iff] at hm
    simp [hm]
  | cons c rest ih =>
    by_cases hp : m.isPrefixOf (c :: rest)
    · simp [splitFirst, hp] at h
      rcases h with ⟨hb, ha⟩
      rcases isPrefixOf_exists m (c :: rest) hp with ⟨s, hs⟩
      subst hb
      have hdrop : (c :: rest).drop m.length = s := by
        rw [hs]; exact List.drop_left m s
      rw [← ha, hdrop, hs]
      simp
    · simp [splitFirst, hp] at h
      cases hrec : splitFirst m rest with
      | none => rw [hrec] at h; simp at h
      | some p =>
        rcases p with ⟨b0, a0⟩
        rw [hrec] at h
        simp at h
        rcases h with ⟨hb, ha⟩
        have := ih b0 a0 hrec
        rw [← hb, ← ha]
        simp [this]

theorem matchCount_one_splitFirst (m t : List Char) (hm : m.isEmpty = false)
    (h1 : matchCount m t = 1) : ∃ b a, splitFirst m t = some (b, a) := by
  cases hsf : splitFirst m t with
  | none =>
    exfalso
    rw [matchCount, hm] at h1
    simp at h1
    rw [matchCountAux, hsf] at h1
    simp at h1
  | some p =>
    rcases p with ⟨b, a⟩
    exact ⟨b, a, rfl⟩

theorem getSubstitution_no_escape (m b a r : List Char)
    (h : hasDollarEscape r = false) : getSubstitution m b a r = r := by
  induction r with
  | nil => rfl
  | cons c rest ih =>
    cases rest with
    | nil => rfl
    | cons d rest2 =>
      rw [hasDollarEscape, Bool.or_eq_false_iff] at h
      rcases h with ⟨hhead, htail⟩
      have ihd := ih htail
      by_cases hcd : c = dollarChar
      · have hd1 : ¬ d = dollarChar := by
          intro hx; rw [hcd, hx] at hhead; simp at hhead
        have hd2 : ¬ d = ampChar := by
          intro hx; rw [hcd, hx] at hhead; simp at hhead
        have hd3 : ¬ d = backtickChar := by
          intro hx; rw [hcd, hx] at hhead; simp at hhead
        have hd4 : ¬ d = squoteChar := by
          intro hx; rw [hcd, hx] at hhead; simp at hhead
        rw [getSubstitution]
        simp [hcd, hd1, hd2, hd3, hd4, ihd]
      · rw [getSubstitution]
        simp [hcd, ihd]

/-- Claim C2 (confirmed): the injection-point check of `addAssets` treats the
configured marker as literal text (the global regexp is built from the
escaped marker, so its matches are the left-to-right non-overlapping literal
occurrences counted by `matchCount`); with zero occurrences it fails with
the not-found error, whose message contains the configured marker; with two
or more occurrences it fails with the multiple-instances error, whose
message contains the instruction `Include it only once`; and it succeeds
exactly when the text contains exactly one occurrence. -/
theorem c2_injection_point_check (marker text : List Char) :
    (matchCount marker text = 0 →
      checkInjectionPoint marker text = Except.error (notFoundMsg marker) ∧
      ∃ s t, notFoundMsg marker = s ++ marker ++ t) ∧
    (2 ≤ matchCount marker text →
      checkInjectionPoint marker text = Except.error (multipleMsg marker) ∧
      ∃ s t, multipleMsg marker = s ++ "Include it only once".toList ++ t) ∧
    (checkInjectionPoint marker text = Except.ok () ↔
      matchCount marker text = 1) := by
  refine ⟨fun h0 => ⟨by simp [checkInjectionPoint, h0], ?_⟩,
          fun h2 => ⟨?_, ?_⟩, ?_, fun h1 => by simp [checkInjectionPoint, h1]⟩
  · refine ⟨"Can".toList ++ [squoteChar] ++ "t find ".toList,
      " in your SW source.".toList, ?_⟩
    simp [notFoundMsg]
  · have h0 : ¬ matchCount marker text = 0 := by omega
    have h1 : ¬ matchCount marker text = 1 := by omega
    simp [checkInjectionPoint, h0, h1]
  · have htail : multipleMsgTail =
        " were found in your SW source. ".toList ++
        "Include it only once".toList ++
        ". For more info, see https://github.com/GoogleChrome/workbox/issues/2681".toList := by
      decide
    refine ⟨"Multiple instances of ".toList ++ marker ++
      " were found in your SW source. ".toList,
      ". For more info, see https://github.com/GoogleChrome/workbox/issues/2681".toList, ?_⟩
    rw [multipleMsg, htail]
    simp
  · intro hok
    by_contra hne
    rcases Nat.eq_zero_or_pos (matchCount marker text) with h0 | hp
    · simp [checkInjectionPoint, h0] at hok
    · have h0 : ¬ matchCount marker text = 0 := by omega
      simp [checkInjectionPoint, h0, hne] at hok

theorem c2_injection_point_check_witness :
    matchCount ("self.__WB_MANIFEST".toList) ("plain text".toList) = 0 ∧
    (checkInjectionPoint ("self.__WB_MANIFEST".toList) ("plain text".toList) =
      Except.error (notFoundMsg ("self.__WB_MANIFEST".toList)) ∧
     ∃ s t, notFoundMsg ("self.__WB_MANIFEST".toList) =
       s ++ "self.__WB_MANIFEST".toList ++ t) :=
  ⟨by decide,
   (c2_injection_point_check ("self.__WB_MANIFEST".toList) ("plain text".toList)).1
     (by decide)⟩

/-- Claim C7 (confirmed): when `runAsChild` reports no infrastructure error,
`performChildCompilation` appends the child compilation's warnings and
errors, in order, to the outer compilation's lists and resolves normally
(`Except.ok`) — also when the child's `errors` list is non-empty, so a
failing sub-build surfaces as outer build errors rather than a thrown
exception. -/
theorem c7_child_diagnostics_appended (comp : Compilation)
    (child : ChildDiagnostics) :
    performChildCompilation comp (Except.ok (some child)) =
      Except.ok { comp with warnings := comp.warnings ++ child.warnings,
                            errors := comp.errors ++ child.errors } := rfl

/-- Claim C9 (code bug): `addAssets` does mutate the instance configuration.
`Object.assign({}, this.config)` copies the `exclude` property by reference,
so the `push` at line 348 appends the generated-assets predicate to the very
array `this.config.exclude` refers to: after every call the instance's
exclude list is one entry longer than before, not unchanged. -/
theorem c9_exclude_array_mutated (gen : List (List Char))
    (inst : PluginInstance) :
    ((addAssetsConfigCopy gen inst).1).excludeContents.length =
      inst.excludeContents.length + 1 := by
  simp [addAssetsConfigCopy]

/-- Claim C1 (corrected): the no-sourcemap branch of `addAssets` (line 421)
uses `String.prototype.replace`, which applies GetSubstitution to the
replacement.  Provided the serialized manifest contains none of the special
dollar sequences, the single marker occurrence is replaced verbatim: the
replacement starts exactly where the marker started (the text decomposes as
`b ++ marker ++ a` at the first occurrence and the result is
`b ++ replacement ++ a`), and the length equation holds. -/
theorem c1_no_sourcemap_splice (T marker : List Char)
    (entries : List ManifestEntry) (cs : Bool) (opts : Option CompOptions)
    (hm : marker.isEmpty = false)
    (h1 : matchCount marker T = 1)
    (hd : hasDollarEscape (manifestString entries cs opts) = false) :
    ∃ b a, splitFirst marker T = some (b, a) ∧ T = b ++ marker ++ a ∧
      jsReplaceFirst marker (manifestString entries cs opts) T =
        spliceVerbatim b (manifestString entries cs opts) a ∧
      (jsReplaceFirst marker (manifestString entries cs opts) T).length =
        T.length - marker.length + (manifestString entries cs opts).length := by
  obtain ⟨b, a, hsf⟩ := matchCount_one_splitFirst marker T hm h1
  have hT := splitFirst_eq marker T b a hsf
  have hrepl : jsReplaceFirst marker (manifestString entries cs opts) T =
      b ++ manifestString entries cs opts ++ a := by
    rw [jsReplaceFirst, hsf]
    show b ++ getSubstitution marker b a (manifestString entries cs opts) ++ a =
      b ++ manifestString entries cs opts ++ a
    rw [getSubstitution_no_escape _ _ _ _ hd]
  refine ⟨b, a, hsf, hT, ?_, ?_⟩
  · rw [hrepl]; rfl
  · rw [hrepl, hT]
    simp [List.length_append]
    omega

theorem c1_no_sourcemap_splice_witness :
    matchCount ("self.__WB_MANIFEST".toList)
      ("precacheAndRoute(self.__WB_MANIFEST);".toList) = 1 ∧
    hasDollarEscape
      (manifestString [⟨"a.js".toList, some ("123".toList)⟩] true none) = false ∧
    (∃ b a, splitFirst ("self.__WB_MANIFEST".toList)
        ("precacheAndRoute(self.__WB_MANIFEST);".toList) = some (b, a) ∧
      "precacheAndRoute(self.__WB_MANIFEST);".toList =
        b ++ "self.__WB_MANIFEST".toList ++ a ∧
      jsReplaceFirst ("self.__WB_MANIFEST".toList)
          (manifestString [⟨"a.js".toList, some ("123".toList)⟩] true none)
          ("precacheAndRoute(self.__WB_MANIFEST);".toList) =
        spliceVerbatim b
          (manifestString [⟨"a.js".toList, some ("123".toList)⟩] true none) a ∧
      (jsReplaceFirst ("self.__WB_MANIFEST".toList)
          (manifestString [⟨"a.js".toList, some ("123".toList)⟩] true none)
          ("precacheAndRoute(self.__WB_MANIFEST);".toList)).length =
        ("precacheAndRoute(self.__WB_MANIFEST);".toList).length -
          ("self.__WB_MANIFEST".toList).length +
          (manifestString [⟨"a.js".toList, some ("123".toList)⟩] true none).length) :=
  ⟨by decide, by decide,
   c1_no_sourcemap_splice ("precacheAndRoute(self.__WB_MANIFEST);".toList)
     ("self.__WB_MANIFEST".toList) [⟨"a.js".toList, some ("123".toList)⟩]
     true none (by decide) (by decide) (by decide)⟩

/-- Claim C1 counterexample: for the manifest entry whose url is the
two-character string dollar-ampersand, the serialized-and-quote-rewritten
manifest contains the GetSubstitution sequence dollar-ampersand, which
`replace` substitutes with the matched marker.  At the text `q@r` and marker
`@` (one occurrence, no source map) the result is neither the verbatim
splice nor of the length the claim states. -/
theorem c1_no_sourcemap_splice_cex :
    matchCount ("@".toList) ("q@r".toList) = 1 ∧
    splitFirst ("@".toList) ("q@r".toList) = some ("q".toList, "r".toList) ∧
    jsReplaceFirst ("@".toList)
        (manifestString [⟨[dollarChar, ampChar], none⟩] true none)
        ("q@r".toList) ≠
      spliceVerbatim ("q".toList)
        (manifestString [⟨[dollarChar, ampChar], none⟩] true none)
        ("r".toList) ∧
    (jsReplaceFirst ("@".toList)
        (manifestString [⟨[dollarChar, ampChar], none⟩] true none)
        ("q@r".toList)).length ≠
      ("q@r".toList).length - ("@".toList).length +
        (manifestString [⟨[dollarChar, ampChar], none⟩] true none).length := by
  decide

theorem dquote_not_mem_quote_map (s : List Char) :
    dquoteChar ∉ s.map (fun c => if c = dquoteChar then squoteChar else c) := by
  intro h
  rw [List.mem_map] at h
  obtain ⟨c, _, hc⟩ := h
  by_cases h' : c = dquoteChar
  · rw [if_pos h'] at hc
    exact absurd hc (by decide)
  · rw [if_neg h'] at hc
    exact h' hc

theorem dquote_mem_stringifyEntry (e : ManifestEntry) :
    dquoteChar ∈ stringifyEntry e := by
  simp [stringifyEntry, jsonString]

theorem mem_commaJoin_head (x : List Char) (xs : List (List Char)) (c : Char)
    (h : c ∈ x) : c ∈ commaJoin (x :: xs) := by
  cases xs with
  | nil => simpa [commaJoin] using h
  | cons y ys => simp [commaJoin, h]

theorem dquote_mem_stringifyEntries (e : ManifestEntry)
    (rest : List ManifestEntry) :
    dquoteChar ∈ stringifyEntries (e :: rest) := by
  have h2 := mem_commaJoin_head (stringifyEntry e) (rest.map stringifyEntry)
    dquoteChar (dquote_mem_stringifyEntry e)
  simp [stringifyEntries, h2]

/-- Claim C3 (corrected): for every non-empty manifest entry sequence, the
string produced at lines 378-392 contains no double quote exactly when
`compileSrc` holds and the compilation's options are not the
`eval-cheap-source-map` + `optimization.minimize` combination (every double
quote is rewritten to a single quote); and for every sequence, when that
condition fails the string is the base serialization with its double quotes
unchanged.  (For the empty sequence the serialization `[]` has no double
quotes regardless of the condition, so the claim's `precisely when` fails
there.) -/
theorem c3_quote_rewrite (entries : List ManifestEntry) (cs : Bool)
    (opts : Option CompOptions) :
    (entries ≠ [] →
      (dquoteChar ∉ manifestString entries cs opts ↔
        quoteCondition cs opts = true)) ∧
    (quoteCondition cs opts = false →
      manifestString entries cs opts = stringifyEntries entries) := by
  have hunchanged : quoteCondition cs opts = false →
      manifestString entries cs opts = stringifyEntries entries := by
    intro hq'
    simp [manifestString, hq']
  refine ⟨?_, hunchanged⟩
  intro hne
  by_cases hq : quoteCondition cs opts = true
  · rw [show manifestString entries cs opts =
        (stringifyEntries entries).map
          (fun c => if c = dquoteChar then squoteChar else c) from by
      simp [manifestString, hq]]
    exact iff_of_true (dquote_not_mem_quote_map _) hq
  · have hq' : quoteCondition cs opts = false := by
      cases hb : quoteCondition cs opts
      · rfl
      · exact absurd hb hq
    obtain ⟨e, rest, hcons⟩ := List.exists_cons_of_ne_nil hne
    have hmem : dquoteChar ∈ stringifyEntries entries := by
      rw [hcons]; exact dquote_mem_stringifyEntries e rest
    rw [hunchanged hq']
    exact iff_of_false (fun hnot => hnot hmem) (by simp [hq'])

theorem c3_quote_rewrite_witness :
    (([⟨"a.js".toList, some ("123".toList)⟩] : List ManifestEntry) ≠ [] ∧
     (dquoteChar ∉
        manifestString [⟨"a.js".toList, some ("123".toList)⟩] true none ↔
       quoteCondition true none = true)) ∧
    (quoteCondition false none = false ∧
     manifestString [⟨"a.js".toList, some ("123".toList)⟩] false none =
       stringifyEntries [⟨"a.js".toList, some ("123".toList)⟩]) :=
  ⟨⟨by decide,
    (c3_quote_rewrite [⟨"a.js".toList, some ("123".toList)⟩] true none).1
      (by decide)⟩,
   ⟨by decide,
    (c3_quote_rewrite [⟨"a.js".toList, some ("123".toList)⟩] false none).2
      (by decide)⟩⟩

/-- Claim C3 counterexample: the empty entry sequence serializes to `[]`,
which contains no double quote although `compileSrc` is false (the string
is the base serialization, untouched), so the `precisely when` of the
claim fails at this input. -/
theorem c3_quote_rewrite_cex :
    quoteCondition false none = false ∧
    dquoteChar ∉ manifestString [] false none ∧
    manifestString [] false none = stringifyEntries [] := by
  decide

theorem mem_runRegistryOps (x : List Char) (gen : List (List Char))
    (ops : List RegistryOp) (h : x ∈ gen) : x ∈ runRegistryOps gen ops := by
  induction ops generalizing gen with
  | nil => exact h
  | cons op rest ih =>
    have hx : x ∈ applyRegistryOp gen op := by
      cases op <;> exact List.mem_cons_of_mem _ h
    simpa [runRegistryOps, List.foldl_cons] using ih (applyRegistryOp gen op) hx

/-- Claim C4 (confirmed): once a destination name is in the process-wide
`_generatedAssetNames` set, it stays there through any further registry
writes (the set is only ever added to), the exclude predicate that
`addAssets` pushes holds for it, and the manifest-entry computation run
with that predicate never returns it. -/
theorem c4_registered_names_excluded (N : List Char) (gen : List (List Char))
    (ops : List RegistryOp) (assetNames : List (List Char))
    (userExclude : List (List Char → Bool)) (hN : N ∈ gen) :
    generatedExcludePred (runRegistryOps gen ops) N = true ∧
    N ∉ computeEntries assetNames
      (userExclude ++ [generatedExcludePred (runRegistryOps gen ops)]) := by
  have hmem : N ∈ runRegistryOps gen ops := mem_runRegistryOps N gen ops hN
  have hpred : generatedExcludePred (runRegistryOps gen ops) N = true :=
    List.elem_eq_true_of_mem hmem
  refine ⟨hpred, ?_⟩
  intro hmemEntry
  rw [computeEntries, List.mem_filter] at hmemEntry
  rcases hmemEntry with ⟨_, hfilt⟩
  simp [List.any_append, hpred] at hfilt

theorem c4_registered_names_excluded_witness :
    ("sw.js".toList ∈ (["sw.js".toList] : List (List Char))) ∧
    (generatedExcludePred
        (runRegistryOps ["sw.js".toList]
          [RegistryOp.registerSourcemap ("sw.js.map".toList)])
        ("sw.js".toList) = true ∧
     "sw.js".toList ∉ computeEntries ["sw.js".toList, "app.js".toList]
       ([] ++ [generatedExcludePred
         (runRegistryOps ["sw.js".toList]
           [RegistryOp.registerSourcemap ("sw.js.map".toList)])])) :=
  ⟨by decide,
   c4_registered_names_excluded ("sw.js".toList) ["sw.js".toList]
     [RegistryOp.registerSourcemap ("sw.js.map".toList)]
     ["sw.js".toList, "app.js".toList] [] (by decide)⟩

/-- Claim C10 (confirmed): when the destination asset has an associated
sourcemap asset, `addAssets` adds the sourcemap name to the process-wide
generated-asset-name set; from then on (through any further registry
writes) the exclude predicate holds for that name, so the companion map is
excluded from every manifest computed afterwards. -/
theorem c10_sourcemap_registered (gen : List (List Char)) (n : List Char)
    (ops : List RegistryOp) (assetNames : List (List Char))
    (userExclude : List (List Char → Bool)) :
    n ∈ addAssetsSourcemapRegister gen (some n) ∧
    n ∉ computeEntries assetNames
      (userExclude ++
        [generatedExcludePred
          (runRegistryOps (addAssetsSourcemapRegister gen (some n)) ops)]) := by
  have hmem0 : n ∈ addAssetsSourcemapRegister gen (some n) := by
    simp [addAssetsSourcemapRegister, applyRegistryOp]
  have hmem : n ∈ runRegistryOps (addAssetsSourcemapRegister gen (some n)) ops :=
    mem_runRegistryOps n _ ops hmem0
  have hpred : generatedExcludePred
      (runRegistryOps (addAssetsSourcemapRegister gen (some n)) ops) n = true :=
    List.elem_eq_true_of_mem hmem
  refine ⟨hmem0, ?_⟩
  intro hmemEntry
  rw [computeEntries, List.mem_filter] at hmemEntry
  rcases hmemEntry with ⟨_, hfilt⟩
  simp [List.any_append, hpred] at hfilt

theorem noteInvocation_repeat (w : List (List Char))
    (h : w.count staleWarningMsg ≤ 1) :
    (noteInvocation true w).1 = true ∧
    (noteInvocation true w).2.count staleWarningMsg ≤ 1 := by
  refine ⟨rfl, ?_⟩
  cases hc : w.contains staleWarningMsg with
  | true =>
    have hmem : staleWarningMsg ∈ w := by simpa using hc
    simpa [noteInvocation, hc, hmem] using h
  | false =>
    have hnot : staleWarningMsg ∉ w := by simpa using hc
    have hcount : w.count staleWarningMsg = 0 := List.count_eq_zero.mpr hnot
    simp [noteInvocation, hc, hnot, List.count_append, hcount]

/-- Claim C5 (corrected): the first `addAssets` call emits no warning and
flips the per-instance flag; every later call takes the warning branch.
The deduplication, however, is against the given compilation's warnings
list, so the amended bound is per compilation: as long as the same warnings
list is threaded through (the same compilation), it never holds more than
one copy of the stale-manifest warning, however many repeat calls occur. -/
theorem c5_stale_warning_dedup (w : List (List Char)) (n : Nat)
    (h : w.count staleWarningMsg ≤ 1) :
    noteInvocation false w = (true, w) ∧
    (callsSameCompilation true w n).1 = true ∧
    (callsSameCompilation true w n).2.count staleWarningMsg ≤ 1 := by
  have main : ∀ k v, v.count staleWarningMsg ≤ 1 →
      (callsSameCompilation true v k).1 = true ∧
      (callsSameCompilation true v k).2.count staleWarningMsg ≤ 1 := by
    intro k
    induction k with
    | zero => exact fun v hv => ⟨rfl, hv⟩
    | succ m ih =>
      intro v hv
      obtain ⟨h1, h2⟩ := noteInvocation_repeat v hv
      have step : callsSameCompilation true v (m + 1) =
          callsSameCompilation (noteInvocation true v).1
            (noteInvocation true v).2 m := rfl
      rw [step, h1]
      exact ih (noteInvocation true v).2 h2
  exact ⟨rfl, (main n w h).1, (main n w h).2⟩

theorem c5_stale_warning_dedup_witness :
    (([] : List (List Char)).count staleWarningMsg ≤ 1) ∧
    (noteInvocation false [] = (true, []) ∧
     (callsSameCompilation true [] 5).1 = true ∧
     (callsSameCompilation true [] 5).2.count staleWarningMsg ≤ 1) :=
  ⟨by decide, c5_stale_warning_dedup [] 5 (by decide)⟩

/-- Claim C5 counterexample: in watch mode each rebuild brings a fresh
compilation (empty warnings list), so the deduplication check never sees
the earlier warning: over three calls the instance emits the warning twice
— more than the claimed at-most-once per instance lifetime. -/
theorem c5_stale_warning_dedup_cex :
    watchModeWarningCount false 3 = 2 ∧ 1 < watchModeWarningCount false 3 := by
  decide

/-- Claim C6 (corrected): the per-instance flag starts false, but
`addAssets` sets it to true at the start of the call — in the guard that
runs before the injection-point check — not when the injection step
completes; in particular after a first call that fails with the
injection-point-not-found error the flag is already true. -/
theorem c6_flag_set_on_entry :
    initialAlreadyCalled = false ∧
    (∀ c w marker text, (addAssetsGuardAndCheck c w marker text).1 = true) ∧
    (∀ w marker text, matchCount marker text = 0 →
      (addAssetsGuardAndCheck false w marker text).2.2 =
        Except.error (notFoundMsg marker) ∧
      (addAssetsGuardAndCheck false w marker text).1 = true) := by
  refine ⟨rfl, ?_, ?_⟩
  · intro c w marker text
    cases c <;> rfl
  · intro w marker text h0
    refine ⟨?_, rfl⟩
    show checkInjectionPoint marker text = Except.error (notFoundMsg marker)
    simp [checkInjectionPoint, h0]

theorem c6_flag_set_on_entry_witness :
    matchCount ("self.__WB_MANIFEST".toList) ("no marker".toList) = 0 ∧
    ((addAssetsGuardAndCheck false [] ("self.__WB_MANIFEST".toList)
        ("no marker".toList)).2.2 =
      Except.error (notFoundMsg ("self.__WB_MANIFEST".toList)) ∧
     (addAssetsGuardAndCheck false [] ("self.__WB_MANIFEST".toList)
        ("no marker".toList)).1 = true) :=
  ⟨by decide,
   c6_flag_set_on_entry.2.2 [] ("self.__WB_MANIFEST".toList)
     ("no marker".toList) (by decide)⟩

/-- Claim C6 counterexample: an instance whose very first `addAssets` call
fails with the injection-point error nevertheless has its flag set to true
after the failed call, contradicting the claim that it would still be
false. -/
theorem c6_flag_set_on_entry_cex :
    initialAlreadyCalled = false ∧
    (addAssetsGuardAndCheck initialAlreadyCalled []
        ("self.__WB_MANIFEST".toList) ("no marker here".toList)).2.2 =
      Except.error (notFoundMsg ("self.__WB_MANIFEST".toList)) ∧
    (addAssetsGuardAndCheck initialAlreadyCalled []
        ("self.__WB_MANIFEST".toList) ("no marker here".toList)).1 = true :=
  ⟨rfl, rfl, rfl⟩

/-- Claim C8 (confirmed): with `compileSrc` false, `handleMake` emits the
source file's bytes unchanged as the destination asset, leaves the errors
list untouched, and appends exactly the one ignored-plugins warning if and
only if a non-empty `webpackCompilationPlugins` array was configured. -/
theorem c8_no_compile_emit (cfg : MakeConfig) (readFile : List Char → List Char)
    (performChild : Compilation → Compilation) (comp : Compilation)
    (h : cfg.compileSrc = false) :
    (handleMakeBody cfg readFile performChild comp).assets =
      comp.assets ++ [(cfg.swDest, readFile cfg.swSrc)] ∧
    (handleMakeBody cfg readFile performChild comp).errors = comp.errors ∧
    ((handleMakeBody cfg readFile performChild comp).warnings =
        comp.warnings ++ [ignoredPluginsWarning] ↔
      hasCompilationPlugins cfg.webpackCompilationPlugins = true) ∧
    (hasCompilationPlugins cfg.webpackCompilationPlugins = false →
      (handleMakeBody cfg readFile performChild comp).warnings =
        comp.warnings) := by
  cases hp : hasCompilationPlugins cfg.webpackCompilationPlugins with
  | false =>
    refine ⟨by simp [handleMakeBody, addSrcToAssets, h, hp],
            by simp [handleMakeBody, addSrcToAssets, h, hp],
            ?_, fun _ => by simp [handleMakeBody, addSrcToAssets, h, hp]⟩
    simp [handleMakeBody, addSrcToAssets, h, hp]
  | true =>
    refine ⟨by simp [handleMakeBody, addSrcToAssets, h, hp],
            by simp [handleMakeBody, addSrcToAssets, h, hp],
            by simp [handleMakeBody, addSrcToAssets, h, hp],
            fun hfalse => absurd hfalse (by decide)⟩

theorem c8_no_compile_emit_witness :
    (MakeConfig.mk ("src/sw.js".toList) ("sw.js".toList) false
        (some [()])).compileSrc = false ∧
    ((handleMakeBody
        (MakeConfig.mk ("src/sw.js".toList) ("sw.js".toList) false (some [()]))
        (fun _ => "RAW".toList) (fun c => c)
        (Compilation.mk [] [] [] none)).assets =
      [] ++ [("sw.js".toList, "RAW".toList)] ∧
     (handleMakeBody
        (MakeConfig.mk ("src/sw.js".toList) ("sw.js".toList) false (some [()]))
        (fun _ => "RAW".toList) (fun c => c)
        (Compilation.mk [] [] [] none)).errors = [] ∧
     ((handleMakeBody
        (MakeConfig.mk ("src/sw.js".toList) ("sw.js".toList) false (some [()]))
        (fun _ => "RAW".toList) (fun c => c)
        (Compilation.mk [] [] [] none)).warnings =
        [] ++ [ignoredPluginsWarning] ↔
       hasCompilationPlugins (some [()]) = true) ∧
     (hasCompilationPlugins (some [()]) = false →
       (handleMakeBody
        (MakeConfig.mk ("src/sw.js".toList) ("sw.js".toList) false (some [()]))
        (fun _ => "RAW".toList) (fun c => c)
        (Compilation.mk [] [] [] none)).warnings = [])) :=
  ⟨rfl,
   c8_no_compile_emit
     (MakeConfig.mk ("src/sw.js".toList) ("sw.js".toList) false (some [()]))
     (fun _ => "RAW".toList) (fun c => c) (Compilation.mk [] [] [] none) rfl⟩
